import Mathlib

/-!
# QingChenMail — verification of the send queue, delivery engine, SMTP ingress,
campaign processor and tracking hooks

Shallow embedding of the Go sources (`internal/mailer/queue.go`,
`internal/mailer/sender.go`, `internal/receiver/server.go`,
`internal/api/tracking_handlers.go`, and the campaign engine / handlers).
The database is modelled as in-memory lists of rows; GORM conditional
updates become pure functions on those lists; timestamps are integers.
-/

namespace QingChenMail

/-- Row of the `email_queue` table (`internal/database/models.go`, `EmailQueue`).
`from`/`to` are written `fromAddr`/`toAddr` because they are Lean keywords. -/
structure EmailQueue where
  id : Nat
  fromAddr : String
  toAddr : String
  subject : String
  body : String
  attachments : String
  channelID : Nat
  status : String
  retries : Nat
  nextRetry : Int
  errorMsg : String
  campaignID : Nat
  trackingID : String
deriving Repr, DecidableEq

/-- Row of the `campaigns` table (`internal/database/models.go`, `Campaign`).
`targetList` holds the already-JSON-decoded manual address list (JSON codecs
are an external collaborator per the spec). -/
structure Campaign where
  id : Nat
  name : String
  subject : String
  body : String
  senderID : Nat
  targetType : String
  targetGroupID : Nat
  targetList : List String
  status : String
  scheduledAt : Option Int
  totalCount : Nat
  sentCount : Nat
  successCount : Nat
  failCount : Nat
  openCount : Nat
  clickCount : Nat
  unsubscribeCount : Nat
deriving Repr, DecidableEq

/-- Row of the `email_logs` table (`internal/database/models.go`, `EmailLog`). -/
structure EmailLog where
  id : Nat
  recipient : String
  subject : String
  body : String
  status : String
  errorMsg : String
  channel : String
  campaignID : Nat
  trackingID : String
  opened : Bool
  clickedCount : Nat
  unsubscribed : Bool
deriving Repr, DecidableEq

/-- Row of the `smtp_configs` table (a Channel). -/
structure SMTPConfig where
  id : Nat
  name : String
  host : String
  port : Nat
  username : String
  password : String
  ssl : Bool
  isDefault : Bool
deriving Repr, DecidableEq

/-- Row of the `domains` table (fields used by rule resolution). -/
structure Domain where
  id : Nat
  name : String
deriving Repr, DecidableEq

/-- Row of the `forward_rules` table. -/
structure ForwardRule where
  id : Nat
  domainID : Nat
  matchType : String
  matchAddr : String
  forwardTo : String
  enabled : Bool
  remark : String
deriving Repr, DecidableEq

/-- Row of the `contacts` table. -/
structure Contact where
  id : Nat
  email : String
  name : String
  groupID : Nat
  status : String
deriving Repr, DecidableEq

/-- `MaxRetries` constant from `internal/mailer/queue.go`. -/
def MaxRetries : Nat := 3

/-- `RetryInterval` constant from `internal/mailer/queue.go`
(`5 * time.Minute`), in seconds. -/
def RetryInterval : Int := 5 * 60

/-! ## C1 — atomic claim of a queue task (`processQueue`, queue.go:94-104) -/

/-- The `WHERE` guard of the claim update:
`status = 'pending' OR status = 'failed'`. -/
def claimable (status : String) : Bool :=
  status == "pending" || status == "failed"

/-- The conditional claim update of `processQueue` (queue.go:98-100):
`UPDATE email_queue SET status='processing'
 WHERE id=? AND (status='pending' OR status='failed')`.
Returns the updated table together with `RowsAffected`. -/
def claimTaskUpdate (queue : List EmailQueue) (taskId : Nat) :
    List EmailQueue × Nat :=
  (queue.map fun q =>
      if q.id = taskId ∧ claimable q.status then { q with status := "processing" } else q,
   (queue.filter fun q => q.id == taskId && claimable q.status).length)

/-- The worker's dispatch decision (queue.go:102-104): it skips the task iff
`RowsAffected == 0`, otherwise hands it to the delivery engine. -/
def workerDispatches (rowsAffected : Nat) : Bool :=
  !(rowsAffected == 0)

theorem claimTaskUpdate_rowsAffected_le_one
    (queue : List EmailQueue) (taskId : Nat)
    (hnodup : (queue.map EmailQueue.id).Nodup) :
    (claimTaskUpdate queue taskId).2 ≤ 1 := by
  simp only [claimTaskUpdate]
  induction queue with
  | nil => simp
  | cons q rest ih =>
    simp only [List.map_cons, List.nodup_cons] at hnodup
    obtain ⟨hq, hrest⟩ := hnodup
    rw [List.filter_cons]
    by_cases h : (q.id == taskId && claimable q.status) = true
    · rw [if_pos h, List.length_cons]
      have hid : q.id = taskId :=
        eq_of_beq ((Bool.and_eq_true _ _).mp h).1
      have hnil : (rest.filter fun r => r.id == taskId && claimable r.status) = [] := by
        rw [List.filter_eq_nil_iff]
        intro r hr hcontra
        have hrid : r.id = taskId :=
          eq_of_beq ((Bool.and_eq_true _ _).mp hcontra).1
        have hmem : r.id ∈ rest.map EmailQueue.id :=
          List.mem_map_of_mem EmailQueue.id hr
        rw [hrid, ← hid] at hmem
        exact hq hmem
      rw [hnil]
      simp
    · rw [if_neg h]
      exact ih hrest

theorem claimTaskUpdate_again_zero (queue : List EmailQueue) (taskId : Nat) :
    (claimTaskUpdate (claimTaskUpdate queue taskId).1 taskId).2 = 0 := by
  simp only [claimTaskUpdate]
  rw [List.filter_map, List.length_map, List.length_eq_zero, List.filter_eq_nil_iff]
  intro q _ hcontra
  simp only [Function.comp_apply] at hcontra
  by_cases hcl : q.id = taskId ∧ claimable q.status = true
  · rw [if_pos hcl] at hcontra
    simp [claimable] at hcontra
  · rw [if_neg hcl] at hcontra
    have := (Bool.and_eq_true _ _).mp hcontra
    exact hcl ⟨eq_of_beq this.1, this.2⟩

/-- C1: per worker tick and task, the claim is atomic. Assuming unique
primary keys, the conditional update `SET status='processing' WHERE id=? AND
status IN ('pending','failed')` affects at most one row; once it has run, a
repeated claim for the same task affects zero rows (so a second claimant
skips); and the worker dispatches the task to the delivery engine exactly
when the update reported one affected row. -/
theorem claim_is_atomic (queue : List EmailQueue) (taskId : Nat)
    (hnodup : (queue.map EmailQueue.id).Nodup) :
    (claimTaskUpdate queue taskId).2 ≤ 1 ∧
    (claimTaskUpdate (claimTaskUpdate queue taskId).1 taskId).2 = 0 ∧
    (workerDispatches (claimTaskUpdate queue taskId).2 = true ↔
      (claimTaskUpdate queue taskId).2 = 1) := by
  refine ⟨claimTaskUpdate_rowsAffected_le_one queue taskId hnodup,
    claimTaskUpdate_again_zero queue taskId, ?_⟩
  have hle := claimTaskUpdate_rowsAffected_le_one queue taskId hnodup
  simp only [workerDispatches, Bool.not_eq_true']
  constructor
  · intro h
    have : (claimTaskUpdate queue taskId).2 ≠ 0 := by
      intro hz
      rw [hz] at h
      simp at h
    omega
  · intro h
    rw [h]
    simp

/-- Witness for `claim_is_atomic` on a concrete two-task queue. -/
theorem claim_is_atomic_witness :
    ((([⟨1, "a@x", "b@y", "s", "b", "", 0, "pending", 0, 0, "", 0, ""⟩,
        ⟨2, "a@x", "c@y", "s", "b", "", 0, "completed", 0, 0, "", 0, ""⟩] :
        List EmailQueue).map EmailQueue.id).Nodup ∧
      (claimTaskUpdate [⟨1, "a@x", "b@y", "s", "b", "", 0, "pending", 0, 0, "", 0, ""⟩,
        ⟨2, "a@x", "c@y", "s", "b", "", 0, "completed", 0, 0, "", 0, ""⟩] 1).2 ≤ 1) := by
  constructor
  · decide
  · exact (claim_is_atomic _ 1 (by decide)).1

/-! ## C2/C3 — terminal accounting and campaign completion (queue.go:108-229) -/

/-- The database state seen by the queue worker: the campaign table and the
email queue table. -/
structure DBState where
  campaigns : List Campaign
  queue : List EmailQueue
deriving Repr, DecidableEq

/-- `database.DB.First(&campaign, id)`: first row with the given primary key. -/
def lookupCampaign (db : DBState) (cid : Nat) : Option Campaign :=
  db.campaigns.find? (fun c => c.id == cid)

/-- First queue row with the given primary key. -/
def lookupTask (db : DBState) (tid : Nat) : Option EmailQueue :=
  db.queue.find? (fun q => q.id == tid)

/-- queue.go:211-213 — count of the campaign's tasks still `pending` or
`processing`. -/
def pendingCount (db : DBState) (cid : Nat) : Nat :=
  (db.queue.filter fun q => q.campaignID == cid &&
    (q.status == "pending" || q.status == "processing")).length

/-- queue.go:216-219 — count of the campaign's `failed` tasks with
`retries < MaxRetries`. -/
def retryableCount (db : DBState) (cid : Nat) : Nat :=
  (db.queue.filter fun q => q.campaignID == cid && q.status == "failed" &&
    decide (q.retries < MaxRetries)).length

/-- `checkCampaignCompletion` (queue.go:197-229): only a campaign currently in
`processing` is marked `completed`, and only when it has no task left in
`pending`/`processing` and no `failed` task with retries left. -/
def checkCampaignCompletion (db : DBState) (cid : Nat) : DBState :=
  match lookupCampaign db cid with
  | none => db
  | some campaign =>
    if campaign.status ≠ "processing" then db
    else if pendingCount db cid = 0 ∧ retryableCount db cid = 0 then
      { db with campaigns := db.campaigns.map fun c =>
          if c.id = cid then { c with status := "completed" } else c }
    else db

/-- The two atomic `UpdateColumn` increments of `updateCampaignStats`
(queue.go:176-190): `success_count + 1` or `fail_count + 1`, then
`sent_count + 1`, all on the row `WHERE id = campaignID`. -/
def applyStatIncrements (db : DBState) (cid : Nat) (success : Bool) : DBState :=
  let db1 : DBState :=
    { db with campaigns := db.campaigns.map fun c =>
        if c.id = cid then
          if success then { c with successCount := c.successCount + 1 }
          else { c with failCount := c.failCount + 1 }
        else c }
  { db1 with campaigns := db1.campaigns.map fun c =>
      if c.id = cid then { c with sentCount := c.sentCount + 1 } else c }

/-- `updateCampaignStats` (queue.go:171-194): early return on campaign id 0,
otherwise the counter increments followed by the completion check. -/
def updateCampaignStats (db : DBState) (cid : Nat) (success : Bool) : DBState :=
  if cid = 0 then db
  else checkCampaignCompletion (applyStatIncrements db cid success) cid

/-- Success branch of the worker goroutine (queue.go:131-141): mark the task
`completed`, clear the error, and update campaign stats when the task belongs
to a campaign. -/
def handleTaskSuccess (db : DBState) (t : EmailQueue) : DBState :=
  let db1 : DBState :=
    { db with queue := db.queue.map fun q =>
        if q.id = t.id then { q with status := "completed", errorMsg := "" } else q }
  if t.campaignID > 0 then updateCampaignStats db1 t.campaignID true else db1

/-- The row update of the failure branch (queue.go:120-125): on the row
`WHERE id = t.id` set the new status (`dead` iff `newRetries >= MaxRetries`,
else `failed`), `retries = newRetries`, the linear backoff
`next_retry = now + RetryInterval * newRetries`, and the error message. -/
def failedTaskUpdate (t : EmailQueue) (now : Int) (errMsg : String)
    (q : EmailQueue) : EmailQueue :=
  if q.id = t.id then
    { q with status := if MaxRetries ≤ t.retries + 1 then "dead" else "failed",
             retries := t.retries + 1,
             nextRetry := now + RetryInterval * ((t.retries + 1 : Nat) : Int),
             errorMsg := errMsg }
  else q

/-- Failure branch of the worker goroutine (queue.go:109-130): apply
`failedTaskUpdate`, and only on a final failure (`newRetries >= MaxRetries`)
of a campaign task run `updateCampaignStats(campaignID, false)`. -/
def handleTaskFailure (db : DBState) (t : EmailQueue) (now : Int)
    (errMsg : String) : DBState :=
  if MaxRetries ≤ t.retries + 1 ∧ 0 < t.campaignID then
    updateCampaignStats
      { db with queue := db.queue.map (failedTaskUpdate t now errMsg) }
      t.campaignID false
  else { db with queue := db.queue.map (failedTaskUpdate t now errMsg) }

theorem find?_map_of_pred_pres {α : Type} (l : List α) (p : α → Bool)
    (f : α → α) (hf : ∀ a, p (f a) = p a) :
    (l.map f).find? p = (l.find? p).map f := by
  induction l with
  | nil => rfl
  | cons a rest ih =>
    simp only [List.map_cons]
    cases hpa : p a
    · rw [List.find?_cons_of_neg _ (by simp [hf, hpa]),
        List.find?_cons_of_neg _ (by simp [hpa]), ih]
    · rw [List.find?_cons_of_pos _ (by simp [hf, hpa]),
        List.find?_cons_of_pos _ hpa]
      rfl

/-- C2: a campaign is set to `completed` by the completion check only when it
was in `processing` and no task of the campaign remains `pending`,
`processing`, or `failed` with `retries < MaxRetries`; moreover the worker
runs the completion check right after each terminal accounting update
(`updateCampaignStats` ends with `checkCampaignCompletion`). -/
theorem campaign_completed_only_if (db : DBState) (cid : Nat) (c c' : Campaign)
    (hc : lookupCampaign db cid = some c)
    (hc2 : lookupCampaign (checkCampaignCompletion db cid) cid = some c')
    (hnew : c'.status = "completed") (hold : c.status ≠ "completed") :
    (c.status = "processing" ∧ pendingCount db cid = 0 ∧
      retryableCount db cid = 0) ∧
    (∀ success : Bool, cid ≠ 0 → updateCampaignStats db cid success =
      checkCampaignCompletion (applyStatIncrements db cid success) cid) := by
  refine ⟨?_, fun success h0 => by simp [updateCampaignStats, h0]⟩
  by_cases hst : c.status = "processing"
  · by_cases hcnt : pendingCount db cid = 0 ∧ retryableCount db cid = 0
    · exact ⟨hst, hcnt⟩
    · have heq : checkCampaignCompletion db cid = db := by
        unfold checkCampaignCompletion
        rw [hc]
        simp [hst, hcnt]
      rw [heq, hc] at hc2
      injection hc2 with h
      rw [← h] at hnew
      exact absurd hnew hold
  · have heq : checkCampaignCompletion db cid = db := by
      unfold checkCampaignCompletion
      rw [hc]
      simp [hst]
    rw [heq, hc] at hc2
    injection hc2 with h
    rw [← h] at hnew
    exact absurd hnew hold

/-- Witness for `campaign_completed_only_if`: one `processing` campaign with an
empty queue is completed by the check. -/
theorem campaign_completed_only_if_witness :
    (("processing" : String) = "processing" ∧
      pendingCount ⟨[⟨7, "n", "s", "b", 1, "manual", 0, [], "processing", none,
          1, 1, 1, 0, 0, 0, 0⟩], []⟩ 7 = 0 ∧
      retryableCount ⟨[⟨7, "n", "s", "b", 1, "manual", 0, [], "processing", none,
          1, 1, 1, 0, 0, 0, 0⟩], []⟩ 7 = 0) ∧
    (∀ success : Bool, (7 : Nat) ≠ 0 →
      updateCampaignStats ⟨[⟨7, "n", "s", "b", 1, "manual", 0, [], "processing",
          none, 1, 1, 1, 0, 0, 0, 0⟩], []⟩ 7 success =
        checkCampaignCompletion
          (applyStatIncrements ⟨[⟨7, "n", "s", "b", 1, "manual", 0, [],
              "processing", none, 1, 1, 1, 0, 0, 0, 0⟩], []⟩ 7 success) 7) :=
  campaign_completed_only_if
    ⟨[⟨7, "n", "s", "b", 1, "manual", 0, [], "processing", none,
        1, 1, 1, 0, 0, 0, 0⟩], []⟩ 7
    ⟨7, "n", "s", "b", 1, "manual", 0, [], "processing", none,
        1, 1, 1, 0, 0, 0, 0⟩
    ⟨7, "n", "s", "b", 1, "manual", 0, [], "completed", none,
        1, 1, 1, 0, 0, 0, 0⟩
    (by decide) (by decide) (by decide) (by decide)

theorem checkCampaignCompletion_queue (db : DBState) (cid : Nat) :
    (checkCampaignCompletion db cid).queue = db.queue := by
  unfold checkCampaignCompletion
  split
  · rfl
  · split
    · rfl
    · split
      · rfl
      · rfl

theorem checkCampaignCompletion_counters (db : DBState) (cid : Nat)
    (c : Campaign) (hc : c ∈ db.campaigns) :
    ∃ c' ∈ (checkCampaignCompletion db cid).campaigns, c'.id = c.id ∧
      c'.sentCount = c.sentCount ∧ c'.successCount = c.successCount ∧
      c'.failCount = c.failCount := by
  unfold checkCampaignCompletion
  split
  · exact ⟨c, hc, rfl, rfl, rfl, rfl⟩
  · split
    · exact ⟨c, hc, rfl, rfl, rfl, rfl⟩
    · split
      · refine ⟨if c.id = cid then { c with status := "completed" } else c,
          List.mem_map_of_mem _ hc, ?_⟩
        by_cases hid : c.id = cid
        · simp [hid]
        · simp [hid]
      · exact ⟨c, hc, rfl, rfl, rfl, rfl⟩

theorem applyStatIncrements_mem_fail (db : DBState) (cid : Nat) (c : Campaign)
    (hc : c ∈ db.campaigns) (hid : c.id = cid) :
    { c with failCount := c.failCount + 1, sentCount := c.sentCount + 1 } ∈
      (applyStatIncrements db cid false).campaigns := by
  unfold applyStatIncrements
  dsimp only
  refine List.mem_map.mpr ⟨{ c with failCount := c.failCount + 1 }, ?_, by simp [hid]⟩
  exact List.mem_map.mpr ⟨c, hc, by simp [hid]⟩

/-- C3: outcome of a failed delivery attempt for a claimed task. If
`retries+1 < MaxRetries` the row becomes `failed` with retries bumped, the
linear backoff `next_retry = now + RetryInterval * (retries+1)` and the error
recorded, and no campaign row changes. If `retries+1 >= MaxRetries` the row
becomes `dead` with the error recorded, and exactly when the task belongs to
a campaign that campaign's `sent_count` and `fail_count` are each incremented
by one (with `success_count` untouched). -/
theorem task_failure_spec (db : DBState) (t : EmailQueue) (now : Int)
    (errMsg : String) :
    (t.retries + 1 < MaxRetries →
      (handleTaskFailure db t now errMsg).campaigns = db.campaigns ∧
      ∀ q ∈ db.queue, q.id = t.id →
        { q with status := "failed", retries := t.retries + 1,
                 nextRetry := now + RetryInterval * ((t.retries + 1 : Nat) : Int),
                 errorMsg := errMsg } ∈ (handleTaskFailure db t now errMsg).queue) ∧
    (MaxRetries ≤ t.retries + 1 →
      (∀ q ∈ db.queue, q.id = t.id →
        { q with status := "dead", retries := t.retries + 1,
                 nextRetry := now + RetryInterval * ((t.retries + 1 : Nat) : Int),
                 errorMsg := errMsg } ∈ (handleTaskFailure db t now errMsg).queue) ∧
      (0 < t.campaignID →
        ∀ c ∈ db.campaigns, c.id = t.campaignID →
          ∃ c' ∈ (handleTaskFailure db t now errMsg).campaigns, c'.id = c.id ∧
            c'.sentCount = c.sentCount + 1 ∧ c'.failCount = c.failCount + 1 ∧
            c'.successCount = c.successCount) ∧
      (t.campaignID = 0 →
        (handleTaskFailure db t now errMsg).campaigns = db.campaigns)) := by
  constructor
  · intro hlt
    have hnf : ¬(MaxRetries ≤ t.retries + 1 ∧ 0 < t.campaignID) := by
      intro h
      omega
    constructor
    · unfold handleTaskFailure
      rw [if_neg hnf]
    · intro q hq hqid
      unfold handleTaskFailure
      rw [if_neg hnf]
      refine List.mem_map.mpr ⟨q, hq, ?_⟩
      unfold failedTaskUpdate
      rw [if_pos hqid]
      have : ¬(MaxRetries ≤ t.retries + 1) := by omega
      simp [this]
  · intro hge
    have hupd : ∀ q ∈ db.queue, q.id = t.id →
        failedTaskUpdate t now errMsg q =
          { q with status := "dead", retries := t.retries + 1,
                   nextRetry := now + RetryInterval * ((t.retries + 1 : Nat) : Int),
                   errorMsg := errMsg } := by
      intro q _ hqid
      unfold failedTaskUpdate
      rw [if_pos hqid]
      simp [hge]
    refine ⟨?_, ?_, ?_⟩
    · intro q hq hqid
      unfold handleTaskFailure
      by_cases hcid : 0 < t.campaignID
      · rw [if_pos ⟨hge, hcid⟩, updateCampaignStats,
          if_neg (by omega), checkCampaignCompletion_queue]
        dsimp only [applyStatIncrements]
        rw [← hupd q hq hqid]
        exact List.mem_map_of_mem _ hq
      · rw [if_neg (by intro h; exact hcid h.2)]
        rw [← hupd q hq hqid]
        exact List.mem_map_of_mem _ hq
    · intro hcid c hc hcide
      unfold handleTaskFailure
      rw [if_pos ⟨hge, hcid⟩, updateCampaignStats, if_neg (by omega)]
      have hc1 : c ∈ (DBState.mk db.campaigns
          (db.queue.map (failedTaskUpdate t now errMsg))).campaigns := hc
      have h2 := applyStatIncrements_mem_fail _ t.campaignID c hc1 hcide
      obtain ⟨c', hmem, hid, hsent, hsucc, hfail⟩ :=
        checkCampaignCompletion_counters _ t.campaignID _ h2
      exact ⟨c', hmem, hid, by simpa using hsent, by simpa using hfail,
        by simpa using hsucc⟩
    · intro hcid0
      unfold handleTaskFailure
      rw [if_neg (by intro h; omega)]

/-- Witness for `task_failure_spec`: a third failure of a campaign task turns
it `dead` and counts once against the campaign. -/
theorem task_failure_spec_witness :
    (MaxRetries ≤ 2 + 1) ∧
    ((⟨1, "a@x", "b@y", "s", "b", "", 0, "processing", 2, 0, "", 7, "tk"⟩ :
        EmailQueue) ∈
      ([⟨1, "a@x", "b@y", "s", "b", "", 0, "processing", 2, 0, "", 7, "tk"⟩] :
        List EmailQueue)) ∧
    (∃ c' ∈ (handleTaskFailure
        ⟨[⟨7, "n", "s", "b", 1, "manual", 0, [], "processing", none,
            3, 2, 2, 0, 0, 0, 0⟩],
          [⟨1, "a@x", "b@y", "s", "b", "", 0, "processing", 2, 0, "", 7, "tk"⟩]⟩
        ⟨1, "a@x", "b@y", "s", "b", "", 0, "processing", 2, 0, "", 7, "tk"⟩
        100 "boom").campaigns,
      c'.id = (7 : Nat) ∧ c'.sentCount = 2 + 1 ∧ c'.failCount = 0 + 1 ∧
        c'.successCount = 2) :=
  ⟨by decide, by decide,
    (task_failure_spec
      ⟨[⟨7, "n", "s", "b", 1, "manual", 0, [], "processing", none,
          3, 2, 2, 0, 0, 0, 0⟩],
        [⟨1, "a@x", "b@y", "s", "b", "", 0, "processing", 2, 0, "", 7, "tk"⟩]⟩
      ⟨1, "a@x", "b@y", "s", "b", "", 0, "processing", 2, 0, "", 7, "tk"⟩
      100 "boom").2 (by decide) |>.2.1 (by decide)
      ⟨7, "n", "s", "b", 1, "manual", 0, [], "processing", none,
          3, 2, 2, 0, 0, 0, 0⟩ (by decide) rfl⟩

/-! ## C9 — HTML escaping of campaign variables (`ProcessCampaign`,
`html.EscapeString`) -/

/-- The five characters escaped by Go's `html.EscapeString`, the function
`ProcessCampaign` applies to the contact name and email before substituting
`{name}` and `{email}` into the campaign body. -/
def isEscapedChar (c : Char) : Bool :=
  c == '&' || c == '\'' || c == '<' || c == '>' || c == '"'

/-- Per-character action of Go's `html.EscapeString`
(`strings.NewReplacer` with pairs `& -> &amp;`, `4-digit quote -> &#39;`,
`< -> &lt;`, `> -> &gt;`, `double quote -> &#34;`; every pattern is a single
character, so the replacer acts independently per character). -/
def escapeChar (c : Char) : List Char :=
  if c = '&' then ['&', 'a', 'm', 'p', ';']
  else if c = '\'' then ['&', '#', '3', '9', ';']
  else if c = '<' then ['&', 'l', 't', ';']
  else if c = '>' then ['&', 'g', 't', ';']
  else if c = '"' then ['&', '#', '3', '4', ';']
  else [c]

/-- `html.EscapeString` on a character list. -/
def escapeList (l : List Char) : List Char :=
  (l.map escapeChar).flatten

/-- `html.EscapeString` on strings. -/
def escapeString (s : String) : String :=
  ⟨escapeList s.data⟩

/-- The per-recipient substitution of `ProcessCampaign`:
`strings.ReplaceAll(body, "{name}", safeName)` then the same for
`{email}`, with both values HTML-escaped first. -/
def renderCampaignBody (body contactName contactEmail : String) : String :=
  (body.replace "{name}" (escapeString contactName)).replace
    "{email}" (escapeString contactEmail)

theorem escapeChar_length_pos (c : Char) : 1 ≤ (escapeChar c).length := by
  unfold escapeChar
  split
  · simp
  · split
    · simp
    · split
      · simp
      · split
        · simp
        · split
          · simp
          · simp

theorem escapeList_length_ge (l : List Char) :
    l.length ≤ (escapeList l).length := by
  induction l with
  | nil => simp [escapeList]
  | cons a rest ih =>
    simp only [escapeList, List.map_cons, List.flatten_cons, List.length_append,
      List.length_cons] at *
    have := escapeChar_length_pos a
    omega

theorem escapeList_length_lt (l : List Char) (h : '&' ∈ l) :
    l.length < (escapeList l).length := by
  induction l with
  | nil => cases h
  | cons a rest ih =>
    simp only [escapeList, List.map_cons, List.flatten_cons, List.length_append,
      List.length_cons] at *
    rcases List.mem_cons.mp h with h1 | h1
    · have ha : (escapeChar a).length = 5 := by rw [← h1]; rfl
      have := escapeList_length_ge rest
      simp only [escapeList] at this
      omega
    · have := ih h1
      have := escapeChar_length_pos a
      omega

theorem amp_mem_escapeChar (c : Char) (h : isEscapedChar c = true) :
    '&' ∈ escapeChar c := by
  simp only [isEscapedChar, Bool.or_eq_true, beq_iff_eq] at h
  rcases h with ⟨⟨⟨h | h⟩ | h⟩ | h⟩ | h <;> rw [h] <;> decide

theorem amp_mem_escapeList (l : List Char) (c : Char) (hc : c ∈ l)
    (h : isEscapedChar c = true) : '&' ∈ escapeList l := by
  unfold escapeList
  rw [List.mem_flatten]
  exact ⟨escapeChar c, List.mem_map_of_mem escapeChar hc, amp_mem_escapeChar c h⟩

theorem escapeList_of_no_escaped (l : List Char)
    (h : ∀ c ∈ l, isEscapedChar c = false) : escapeList l = l := by
  induction l with
  | nil => rfl
  | cons a rest ih =>
    have ha := h a (List.mem_cons_self a rest)
    simp only [isEscapedChar, Bool.or_eq_false_iff, beq_eq_false_iff_ne,
      ne_eq] at ha
    show escapeChar a ++ escapeList rest = a :: rest
    rw [ih fun c hc => h c (List.mem_cons_of_mem a hc)]
    have hea : escapeChar a = [a] := by
      unfold escapeChar
      rw [if_neg ha.1.1.1.1, if_neg ha.1.1.1.2, if_neg ha.1.1.2,
        if_neg ha.1.2, if_neg ha.2]
    rw [hea]
    rfl

/-- C9 counterexample: the HTML escaping used in campaign substitution is not
idempotent — on the input `"&"` a second application escapes the `&` of
`&amp;` again. -/
theorem escape_not_idempotent_counterexample :
    escapeString (escapeString "&") ≠ escapeString "&" := by
  decide

/-- C9 amended: the escaping is idempotent at `s` exactly when `s` contains
none of the five escaped characters (in which case it is the identity); any
occurrence of an escaped character breaks idempotence. -/
theorem escape_idempotent_iff (s : String) :
    escapeString (escapeString s) = escapeString s ↔
    ∀ c ∈ s.data, isEscapedChar c = false := by
  constructor
  · intro h
    by_contra hne
    push_neg at hne
    obtain ⟨c, hc, hspec⟩ := hne
    have hspec2 : isEscapedChar c = true := by
      cases he : isEscapedChar c
      · exact absurd he hspec
      · rfl
    have hamp : '&' ∈ escapeList s.data := amp_mem_escapeList s.data c hc hspec2
    have hlt := escapeList_length_lt (escapeList s.data) hamp
    have hdata : escapeList (escapeList s.data) = escapeList s.data :=
      congrArg String.data h
    rw [hdata] at hlt
    omega
  · intro h
    have he : escapeList s.data = s.data := escapeList_of_no_escaped s.data h
    show String.mk (escapeList (String.mk (escapeList s.data)).data) =
      String.mk (escapeList s.data)
    have hd : (String.mk (escapeList s.data)).data = escapeList s.data := rfl
    rw [hd, he, he]

/-- Witness for `escape_idempotent_iff` at a concrete escape-free string. -/
theorem escape_idempotent_iff_witness :
    escapeString (escapeString "hello") = escapeString "hello" :=
  (escape_idempotent_iff "hello").mpr (by decide)

/-! ## C10 — click-tracking endpoint (`TrackClickHandler`,
internal/api/tracking_handlers.go:81-108) -/

/-- Index of a character in the base64url alphabet of Go's
`base64.URLEncoding` (RFC 4648: `A-Z`, `a-z`, `0-9`, `-`, `_`). -/
def b64Index (c : Char) : Option Nat :=
  if 'A' ≤ c ∧ c ≤ 'Z' then some (c.toNat - 65)
  else if 'a' ≤ c ∧ c ≤ 'z' then some (c.toNat - 97 + 26)
  else if '0' ≤ c ∧ c ≤ '9' then some (c.toNat - 48 + 52)
  else if c = '-' then some 62
  else if c = '_' then some 63
  else none

/-- Quantum-by-quantum base64 decoding: each four characters yield three
bytes; `=` padding is accepted only at the tail of the final quantum
(`xx==` → one byte, `xxx=` → two bytes); any other length or character is a
corrupt-input error, as in Go's `encoding/base64` decoder. -/
def b64DecodeGroups : List Char → Option (List Nat)
  | [] => some []
  | a :: b :: c :: d :: rest => do
      let ia ← b64Index a
      let ib ← b64Index b
      if c = '=' then
        if d = '=' ∧ rest = [] then
          some [ia * 4 + ib / 16]
        else none
      else do
        let ic ← b64Index c
        if d = '=' then
          if rest = [] then
            some [ia * 4 + ib / 16, (ib % 16) * 16 + ic / 4]
          else none
        else do
          let idd ← b64Index d
          let tail ← b64DecodeGroups rest
          some ((ia * 4 + ib / 16) :: ((ib % 16) * 16 + ic / 4) ::
            ((ic % 4) * 64 + idd) :: tail)
  | _ => none

/-- `base64.URLEncoding.DecodeString`: newline characters are ignored, then
the input is decoded in four-character quanta with mandatory padding. -/
def base64URLDecode (s : String) : Option (List Nat) :=
  b64DecodeGroups (s.data.filter fun c => !(c == '\x0d' || c == '\x0a'))

/-- Tables touched by the tracking endpoints. -/
structure TrackDB where
  logs : List EmailLog
  campaigns : List Campaign
deriving Repr, DecidableEq

/-- HTTP outcome of `TrackClickHandler`: `400 Invalid URL`, or a `302`
redirect to the decoded target bytes. -/
inductive ClickResponse
  | badRequest
  | redirect (target : List Nat)
deriving Repr, DecidableEq

/-- `TrackClickHandler` (tracking_handlers.go:81-108): base64url-decode the
`url` query parameter (400 on failure); look up the EmailLog row by tracking
id, and when found increment its `clicked_count` and, for campaign mail, the
campaign's `click_count`; finally redirect (302) to the decoded URL. -/
def trackClickHandler (db : TrackDB) (trackingID : String) (urlParam : String) :
    ClickResponse × TrackDB :=
  match base64URLDecode urlParam with
  | none => (.badRequest, db)
  | some targetBytes =>
    match db.logs.find? (fun l => l.trackingID == trackingID) with
    | none => (.redirect targetBytes, db)
    | some theLog =>
      let db1 : TrackDB :=
        { db with logs := db.logs.map fun l =>
            if l.id = theLog.id then { l with clickedCount := l.clickedCount + 1 }
            else l }
      let db2 : TrackDB :=
        if 0 < theLog.campaignID then
          { db1 with campaigns := db1.campaigns.map fun c =>
              if c.id = theLog.campaignID then
                { c with clickCount := c.clickCount + 1 }
              else c }
        else db1
      (.redirect targetBytes, db2)

/-- C10: when the `url` parameter decodes as base64url the handler replies
with a 302 redirect to the decoded URL even if no EmailLog row carries the
tracking id (and then neither logs nor campaigns change); only a parameter
that fails base64url decoding yields a 400, and then nothing changes and no
redirect is issued. -/
theorem trackClick_spec (db : TrackDB) (tid url : String) :
    (∀ bytes, base64URLDecode url = some bytes →
      (db.logs.find? (fun l => l.trackingID == tid) = none →
        trackClickHandler db tid url = (.redirect bytes, db)) ∧
      (trackClickHandler db tid url).1 = .redirect bytes) ∧
    (base64URLDecode url = none →
      trackClickHandler db tid url = (.badRequest, db)) := by
  refine ⟨fun bytes hdec => ⟨fun hfind => ?_, ?_⟩, fun hdec => ?_⟩
  · unfold trackClickHandler
    rw [hdec, hfind]
  · unfold trackClickHandler
    rw [hdec]
    dsimp only
    split
    · rfl
    · rfl
  · unfold trackClickHandler
    rw [hdec]

/-- Witness for `trackClick_spec`: `"aHR0cA=="` decodes to the bytes of
`"http"`, and with an empty database the handler redirects unchanged. -/
theorem trackClick_spec_witness :
    base64URLDecode "aHR0cA==" = some [104, 116, 116, 112] ∧
    trackClickHandler ⟨[], []⟩ "nope" "aHR0cA==" =
      (.redirect [104, 116, 116, 112], ⟨[], []⟩) :=
  ⟨by decide,
    ((trackClick_spec ⟨[], []⟩ "nope" "aHR0cA==").1 [104, 116, 116, 112]
      (by decide)).1 (by decide)⟩

/-! ## Go string helpers

Kernel-computable embeddings of the Go standard-library string functions the
receiver uses (`strings.Split` on a one-character separator,
`strings.ToLower` on ASCII input, `strings.HasPrefix`), working on the
character list of a string. -/

/-- `strings.Split` on a single-character separator, over a character list. -/
def splitOnChar (sep : Char) : List Char → List (List Char)
  | [] => [[]]
  | c :: rest =>
    if c = sep then [] :: splitOnChar sep rest
    else
      match splitOnChar sep rest with
      | [] => [[c]]
      | h :: t => (c :: h) :: t

/-- `strings.Split(s, sep)` for a one-character separator. -/
def strSplitOn (sep : Char) (s : String) : List String :=
  (splitOnChar sep s.data).map String.mk

/-- ASCII lower-casing of one character (`unicode.ToLower` restricted to the
ASCII range, which is all the claims need). -/
def toLowerChar (c : Char) : Char :=
  if 'A' ≤ c ∧ c ≤ 'Z' then Char.ofNat (c.toNat + 32) else c

/-- `strings.ToLower` (ASCII). -/
def strToLower (s : String) : String :=
  ⟨s.data.map toLowerChar⟩

/-- `strings.HasPrefix`. -/
def strHasPrefix (s pre : String) : Bool :=
  pre.data.isPrefixOf s.data

/-! ## C5 — SMTP admission rate limiting (`handleConnection`,
`RateLimiter.Allow`, internal/receiver/server.go) -/

/-- The in-process sliding-window rate limiter (server.go:43-49): `limit` is
the configured cap (a Go `int`), `window` is one minute, `requests` maps a
key to its recorded timestamps. -/
structure RateLimiter where
  limit : Int
  window : Int
  requests : List (String × List Int)
deriving Repr, DecidableEq

/-- Read `rl.requests[key]` (zero value `[]` when absent). -/
def getRequests (m : List (String × List Int)) (k : String) : List Int :=
  match m.find? (fun kv => kv.1 == k) with
  | some kv => kv.2
  | none => []

/-- Write `rl.requests[key] = v`. -/
def setRequests (m : List (String × List Int)) (k : String) (v : List Int) :
    List (String × List Int) :=
  if m.any (fun kv => kv.1 == k) then
    m.map (fun kv => if kv.1 == k then (k, v) else kv)
  else m ++ [(k, v)]

/-- `RateLimiter.Allow` (server.go:76-103): unlimited when `limit <= 0`;
otherwise drop entries at or before `now - window`, refuse when the surviving
count reaches `limit`, and otherwise record `now` and admit. -/
def RateLimiter.Allow (rl : RateLimiter) (key : String) (now : Int) :
    Bool × RateLimiter :=
  if rl.limit ≤ 0 then (true, rl)
  else
    let valid := (getRequests rl.requests key).filter (fun t => now - rl.window < t)
    if rl.limit ≤ (valid.length : Int) then
      (false, { rl with requests := setRequests rl.requests key valid })
    else
      (true, { rl with requests := setRequests rl.requests key (valid ++ [now]) })

/-- `net.SplitHostPort` as `isBlacklisted` uses it (server.go:144-154): the
host part of `host:port`, empty on error (no colon or too many colons;
bracketed IPv6 literals are not needed by the claims). -/
def splitHostPart (addr : String) : String :=
  match strSplitOn ':' addr with
  | [h, _] => h
  | _ => ""

/-- `isBlacklisted` (server.go:144-154): the blacklist is checked against the
host with the port stripped. -/
def isBlacklisted (blacklist : List String) (addr : String) : Bool :=
  blacklist.contains (if splitHostPart addr == "" then addr else splitHostPart addr)

/-- Outcome of the admission phase of an SMTP connection. -/
inductive SMTPAdmission
  | blocked554
  | rateLimited421
  | admitted
deriving Repr, DecidableEq

/-- Admission logic of `handleConnection` (server.go:238-255). `remoteAddr`
is `conn.RemoteAddr().String()`, i.e. the `host:port` form. The blacklist
check strips the port, but the rate limiter is consulted with the full
`remoteAddr` string (`rateLimiter.Allow(remoteIP)`), exactly as in the
source. -/
def handleConnectionAdmission (blacklist : List String) (rl : RateLimiter)
    (remoteAddr : String) (now : Int) : SMTPAdmission × RateLimiter :=
  if isBlacklisted blacklist remoteAddr then (.blocked554, rl)
  else
    let r := rl.Allow remoteAddr now
    if r.1 then (.admitted, r.2) else (.rateLimited421, r.2)

/-- C5: the admission rate limiter is keyed on `conn.RemoteAddr().String()`,
which contains the ephemeral source port. With `rate_limit = 2`, three
connections from the same IP (distinct source ports) within ten seconds are
all admitted — none receives `421` — while three connections presenting the
same `host:port` string do trip the limiter on the third. This contradicts
the intended per-IP limit (the source's own comments and log lines describe
`Allow` as per-IP, and the sibling blacklist check does strip the port). -/
theorem rate_limiter_keyed_on_host_port :
    ((handleConnectionAdmission [] ⟨2, 60, []⟩ "203.0.113.7:40001" 0).1 =
        .admitted ∧
      (handleConnectionAdmission []
        (handleConnectionAdmission [] ⟨2, 60, []⟩ "203.0.113.7:40001" 0).2
        "203.0.113.7:40002" 5).1 = .admitted ∧
      (handleConnectionAdmission []
        (handleConnectionAdmission []
          (handleConnectionAdmission [] ⟨2, 60, []⟩ "203.0.113.7:40001" 0).2
          "203.0.113.7:40002" 5).2
        "203.0.113.7:40003" 10).1 = .admitted) ∧
    (handleConnectionAdmission []
        (handleConnectionAdmission []
          (handleConnectionAdmission [] ⟨2, 60, []⟩ "203.0.113.7:40001" 0).2
          "203.0.113.7:40001" 5).2
        "203.0.113.7:40001" 10).1 = .rateLimited421 := by
  exact ⟨⟨by decide, by decide, by decide⟩, by decide⟩

/-! ## C6 — forward-rule resolution (`findForwardRule`, server.go:809-847) -/

/-- `findForwardRule` (server.go:809-847): split the address on `@` into
exactly two parts, lower-case both; look the domain up case-insensitively
(`WHERE LOWER(name) = ?`, first row); fetch the domain's enabled rules
(`WHERE domain_id = ? AND enabled = true`); then three passes in order:
exact (`ToLower(MatchAddr) == localPart`), prefix
(`HasPrefix(localPart, ToLower(MatchAddr))`), all (`MatchType == "all"`). -/
def findForwardRule (domains : List Domain) (rules : List ForwardRule)
    (email : String) : Option (ForwardRule × Domain) :=
  match strSplitOn '@' email with
  | [lp, dn] =>
    match domains.find? (fun d => strToLower d.name == strToLower dn) with
    | none => none
    | some domain =>
      let enabledRules := rules.filter fun r => r.domainID == domain.id && r.enabled
      match enabledRules.find? (fun r =>
          r.matchType == "exact" && strToLower r.matchAddr == strToLower lp) with
      | some r => some (r, domain)
      | none =>
        match enabledRules.find? (fun r =>
            r.matchType == "prefix" &&
              strHasPrefix (strToLower lp) (strToLower r.matchAddr)) with
        | some r => some (r, domain)
        | none =>
          match enabledRules.find? (fun r => r.matchType == "all") with
          | some r => some (r, domain)
          | none => none
  | _ => none

/-- C6: rule resolution lower-cases the split address, returns no match when
no domain row matches the domain case-insensitively, and any returned rule
belongs to the matched domain, is enabled, and respects the first-match-wins
precedence exact > prefix > all. -/
theorem findForwardRule_spec (domains : List Domain) (rules : List ForwardRule)
    (email lp dn : String) (hsplit : strSplitOn '@' email = [lp, dn]) :
    ((∀ d ∈ domains, strToLower d.name ≠ strToLower dn) →
      findForwardRule domains rules email = none) ∧
    (∀ r d, findForwardRule domains rules email = some (r, d) →
      d ∈ domains ∧ strToLower d.name = strToLower dn ∧
      r ∈ rules ∧ r.domainID = d.id ∧ r.enabled = true ∧
      ((r.matchType = "exact" ∧ strToLower r.matchAddr = strToLower lp) ∨
       (r.matchType = "prefix" ∧
         strHasPrefix (strToLower lp) (strToLower r.matchAddr) = true ∧
         (∀ r2 ∈ rules, r2.domainID = d.id → r2.enabled = true →
           ¬(r2.matchType = "exact" ∧ strToLower r2.matchAddr = strToLower lp))) ∨
       (r.matchType = "all" ∧
         (∀ r2 ∈ rules, r2.domainID = d.id → r2.enabled = true →
           ¬(r2.matchType = "exact" ∧ strToLower r2.matchAddr = strToLower lp)) ∧
         (∀ r2 ∈ rules, r2.domainID = d.id → r2.enabled = true →
           ¬(r2.matchType = "prefix" ∧
             strHasPrefix (strToLower lp) (strToLower r2.matchAddr) = true))))) := by
  constructor
  · intro hnone
    unfold findForwardRule
    rw [hsplit]
    dsimp only
    have hfd : domains.find? (fun d => strToLower d.name == strToLower dn) = none := by
      rw [List.find?_eq_none]
      intro d hd
      simp only [beq_iff_eq]
      exact hnone d hd
    rw [hfd]
  · intro r d hres
    unfold findForwardRule at hres
    rw [hsplit] at hres
    dsimp only at hres
    cases hfd : domains.find? (fun d0 => strToLower d0.name == strToLower dn) with
    | none =>
      rw [hfd] at hres
      exact absurd hres (by simp)
    | some domain =>
      rw [hfd] at hres
      dsimp only at hres
      have hdommem : domain ∈ domains := List.mem_of_find?_eq_some hfd
      have hdomname : strToLower domain.name = strToLower dn := by
        have := List.find?_some hfd
        simpa using this
      have hnoexact : (rules.filter fun r0 => r0.domainID == domain.id && r0.enabled).find?
            (fun r0 => r0.matchType == "exact" &&
              strToLower r0.matchAddr == strToLower lp) = none →
          ∀ r2 ∈ rules, r2.domainID = domain.id → r2.enabled = true →
            ¬(r2.matchType = "exact" ∧ strToLower r2.matchAddr = strToLower lp) := by
        intro he r2 h2 hdom2 hen2 hcontra
        have h2f : r2 ∈ rules.filter fun r0 => r0.domainID == domain.id && r0.enabled :=
          List.mem_filter.mpr ⟨h2, by simp [hdom2, hen2]⟩
        have := List.find?_eq_none.mp he r2 h2f
        simp [hcontra.1, hcontra.2] at this
      have hnoprefix : (rules.filter fun r0 => r0.domainID == domain.id && r0.enabled).find?
            (fun r0 => r0.matchType == "prefix" &&
              strHasPrefix (strToLower lp) (strToLower r0.matchAddr)) = none →
          ∀ r2 ∈ rules, r2.domainID = domain.id → r2.enabled = true →
            ¬(r2.matchType = "prefix" ∧
              strHasPrefix (strToLower lp) (strToLower r2.matchAddr) = true) := by
        intro he r2 h2 hdom2 hen2 hcontra
        have h2f : r2 ∈ rules.filter fun r0 => r0.domainID == domain.id && r0.enabled :=
          List.mem_filter.mpr ⟨h2, by simp [hdom2, hen2]⟩
        have := List.find?_eq_none.mp he r2 h2f
        simp [hcontra.1, hcontra.2] at this
      cases hex : (rules.filter fun r0 => r0.domainID == domain.id && r0.enabled).find?
          (fun r0 => r0.matchType == "exact" &&
            strToLower r0.matchAddr == strToLower lp) with
      | some rex =>
        rw [hex] at hres
        have hpair : (rex, domain) = (r, d) := by
          injection hres
        obtain ⟨hr1, hd1⟩ := Prod.mk.injEq _ _ _ _ ▸ hpair
        subst hr1
        subst hd1
        have hmemf := List.mem_of_find?_eq_some hex
        have hfpred := List.of_mem_filter hmemf
        have hppred := List.find?_some hex
        simp only [Bool.and_eq_true, beq_iff_eq] at hfpred hppred
        exact ⟨hdommem, hdomname, List.mem_of_mem_filter hmemf, hfpred.1,
          hfpred.2, Or.inl ⟨hppred.1, hppred.2⟩⟩
      | none =>
        rw [hex] at hres
        dsimp only at hres
        cases hpx : (rules.filter fun r0 => r0.domainID == domain.id && r0.enabled).find?
            (fun r0 => r0.matchType == "prefix" &&
              strHasPrefix (strToLower lp) (strToLower r0.matchAddr)) with
        | some rpx =>
          rw [hpx] at hres
          have hpair : (rpx, domain) = (r, d) := by
            injection hres
          obtain ⟨hr1, hd1⟩ := Prod.mk.injEq _ _ _ _ ▸ hpair
          subst hr1
          subst hd1
          have hmemf := List.mem_of_find?_eq_some hpx
          have hfpred := List.of_mem_filter hmemf
          have hppred := List.find?_some hpx
          simp only [Bool.and_eq_true, beq_iff_eq] at hfpred hppred
          exact ⟨hdommem, hdomname, List.mem_of_mem_filter hmemf, hfpred.1,
            hfpred.2, Or.inr (Or.inl ⟨hppred.1, hppred.2, hnoexact hex⟩)⟩
        | none =>
          rw [hpx] at hres
          dsimp only at hres
          cases hal : (rules.filter fun r0 => r0.domainID == domain.id && r0.enabled).find?
              (fun r0 => r0.matchType == "all") with
          | some ral =>
            rw [hal] at hres
            have hpair : (ral, domain) = (r, d) := by
              injection hres
            obtain ⟨hr1, hd1⟩ := Prod.mk.injEq _ _ _ _ ▸ hpair
            subst hr1
            subst hd1
            have hmemf := List.mem_of_find?_eq_some hal
            have hfpred := List.of_mem_filter hmemf
            have hppred := List.find?_some hal
            simp only [Bool.and_eq_true, beq_iff_eq] at hfpred hppred
            exact ⟨hdommem, hdomname, List.mem_of_mem_filter hmemf, hfpred.1,
              hfpred.2, Or.inr (Or.inr ⟨hppred, hnoexact hex, hnoprefix hpx⟩)⟩
          | none =>
            rw [hal] at hres
            exact absurd hres (by simp)

/-- Witness for `findForwardRule_spec`: `Support@mail.x.TEST` resolves via the
enabled prefix rule `sup` of domain `Mail.X.test`. -/
theorem findForwardRule_spec_witness :
    strSplitOn '@' "Support@mail.x.TEST" = ["Support", "mail.x.TEST"] ∧
    (⟨2, 1, "prefix", "Sup", "ext@y.test", true, ""⟩ : ForwardRule) ∈
      ([⟨1, 1, "exact", "admin", "boss@y.test", true, ""⟩,
        ⟨2, 1, "prefix", "Sup", "ext@y.test", true, ""⟩,
        ⟨3, 1, "all", "", "bin@y.test", true, ""⟩] : List ForwardRule) :=
  ⟨by decide,
    ((findForwardRule_spec [⟨1, "Mail.X.test"⟩]
      [⟨1, 1, "exact", "admin", "boss@y.test", true, ""⟩,
        ⟨2, 1, "prefix", "Sup", "ext@y.test", true, ""⟩,
        ⟨3, 1, "all", "", "bin@y.test", true, ""⟩]
      "Support@mail.x.TEST" "Support" "mail.x.TEST" (by decide)).2
      ⟨2, 1, "prefix", "Sup", "ext@y.test", true, ""⟩ ⟨1, "Mail.X.test"⟩
      (by decide)).2.2.1⟩

/-! ## C7 — campaign Start gating (`StartCampaignHandler`, part_013:485-513,
and `ProcessCampaign`, part_011:932-1063) -/

/-- The tables the campaign engine touches. -/
structure CampaignDB where
  campaigns : List Campaign
  contacts : List Contact
  smtpConfigs : List SMTPConfig
  queue : List EmailQueue
deriving Repr, DecidableEq

/-- `database.DB.Model(&campaign).Update("status", st)`. -/
def setCampaignStatus (db : CampaignDB) (cid : Nat) (st : String) : CampaignDB :=
  { db with campaigns := db.campaigns.map fun c =>
      if c.id = cid then { c with status := st } else c }

/-- The `Updates` call of `ProcessCampaign` step 3: status `processing`,
`total_count = len(contacts)`, `sent_count = 0` (note: `success_count` and
`fail_count` are not reset). -/
def setCampaignProcessing (db : CampaignDB) (cid total : Nat) : CampaignDB :=
  { db with campaigns := db.campaigns.map fun c =>
      if c.id = cid then
        { c with status := "processing", totalCount := total, sentCount := 0 }
      else c }

/-- Recipient expansion of `ProcessCampaign` step 1: for a `group` target the
active contacts of the group; for a `manual` target one contact per stored
address; otherwise none. -/
def campaignContacts (db : CampaignDB) (c : Campaign) : List Contact :=
  if c.targetType = "group" then
    db.contacts.filter fun ct => ct.groupID == c.targetGroupID && ct.status == "active"
  else if c.targetType = "manual" then
    c.targetList.map fun e => ⟨0, e, "", 0, ""⟩
  else []

/-- The queue task `ProcessCampaign` creates per recipient: `From` = channel
username, `ChannelID` = channel id, `CampaignID` and `Status` `pending`.
The per-recipient body uses the `{name}`/`{email}` substitution
(`renderCampaignBody`); the tracking-pixel / click-wrapper injection and the
fresh UUID tracking id are opaque to the claims here and are left out of the
body and id fields. -/
def makeCampaignTask (c : Campaign) (cfg : SMTPConfig) (ct : Contact) :
    EmailQueue :=
  ⟨0, cfg.username, ct.email, c.subject, renderCampaignBody c.body ct.name ct.email,
   "", cfg.id, "pending", 0, 0, "", c.id, ""⟩

/-- Result reported by the start path. -/
inductive StartResult
  | notFound
  | alreadyProcessed
  | scheduled
  | failedNoContacts
  | failedInvalidSender
  | started
deriving Repr, DecidableEq

/-- `ProcessCampaign` (part_011:932-1063): reject `processing`/`completed`;
no recipients or unknown sender channel → status `failed` plus an error;
otherwise set `processing` with fresh totals and enqueue one pending task per
recipient. -/
def processCampaign (db : CampaignDB) (c : Campaign) : CampaignDB × StartResult :=
  if c.status = "processing" ∨ c.status = "completed" then
    (db, .alreadyProcessed)
  else if (campaignContacts db c).length = 0 then
    (setCampaignStatus db c.id "failed", .failedNoContacts)
  else
    match db.smtpConfigs.find? (fun s0 => s0.id == c.senderID) with
    | none => (setCampaignStatus db c.id "failed", .failedInvalidSender)
    | some cfg =>
      ({ setCampaignProcessing db c.id (campaignContacts db c).length with
          queue := db.queue ++ (campaignContacts db c).map (makeCampaignTask c cfg) },
        .started)

/-- `StartCampaignHandler` (part_013:485-513): load the campaign; reject only
`processing`/`completed`; if `scheduled_at` is in the future set status
`scheduled`; otherwise run `ProcessCampaign`. -/
def startCampaignHandler (db : CampaignDB) (cid : Nat) (now : Int) :
    CampaignDB × StartResult :=
  match db.campaigns.find? (fun c0 => c0.id == cid) with
  | none => (db, .notFound)
  | some campaign =>
    if campaign.status = "processing" ∨ campaign.status = "completed" then
      (db, .alreadyProcessed)
    else
      match campaign.scheduledAt with
      | some t => if now < t then (setCampaignStatus db cid "scheduled", .scheduled)
                  else processCampaign db campaign
      | none => processCampaign db campaign

/-- C7 counterexample: a `paused` campaign (with one recipient and a valid
sender channel) is not rejected by Start — the handler runs the expander,
the campaign becomes `processing` again and a new task is enqueued, so the
claim's "rejected for paused with state and queue unchanged" is false. -/
theorem start_paused_campaign_counterexample :
    (startCampaignHandler
        ⟨[⟨5, "n", "s", "b", 1, "manual", 0, ["u@a.test"], "paused", none,
            1, 1, 1, 0, 0, 0, 0⟩], [], [⟨1, "ch", "h", 25, "me@x", "pw", false, true⟩],
          []⟩ 5 100).2 = .started ∧
    (startCampaignHandler
        ⟨[⟨5, "n", "s", "b", 1, "manual", 0, ["u@a.test"], "paused", none,
            1, 1, 1, 0, 0, 0, 0⟩], [], [⟨1, "ch", "h", 25, "me@x", "pw", false, true⟩],
          []⟩ 5 100).1.queue.length = 1 ∧
    ((startCampaignHandler
        ⟨[⟨5, "n", "s", "b", 1, "manual", 0, ["u@a.test"], "paused", none,
            1, 1, 1, 0, 0, 0, 0⟩], [], [⟨1, "ch", "h", 25, "me@x", "pw", false, true⟩],
          []⟩ 5 100).1.campaigns.map Campaign.status) = ["processing"] := by
  refine ⟨by decide, by decide, by decide⟩

/-- C7 amended: Start is rejected with the database unchanged exactly on the
guard `status ∈ {processing, completed}` — outside the guard the handler
never reports the `already processed` rejection — and a campaign in `draft`,
`failed`, `scheduled` or `paused` that is not scheduled in the future
(`scheduled_at` absent or already due) is started whenever it has at least
one recipient and its sender channel exists, appending one pending task per
recipient to the queue; a future `scheduled_at` only re-sets the status to
`scheduled`. -/
theorem startCampaign_guard_spec (db : CampaignDB) (cid : Nat) (now : Int)
    (c : Campaign) (hc : db.campaigns.find? (fun c0 => c0.id == cid) = some c) :
    ((c.status = "processing" ∨ c.status = "completed") →
      startCampaignHandler db cid now = (db, .alreadyProcessed)) ∧
    (¬(c.status = "processing" ∨ c.status = "completed") →
      (startCampaignHandler db cid now).2 ≠ .alreadyProcessed ∧
      (∀ t, c.scheduledAt = some t → now < t →
        startCampaignHandler db cid now =
          (setCampaignStatus db cid "scheduled", .scheduled)) ∧
      ((c.scheduledAt = none ∨ ∃ t, c.scheduledAt = some t ∧ ¬(now < t)) →
        0 < (campaignContacts db c).length →
        ∀ cfg, db.smtpConfigs.find? (fun s0 => s0.id == c.senderID) = some cfg →
          startCampaignHandler db cid now =
            ({ setCampaignProcessing db c.id (campaignContacts db c).length with
                queue := db.queue ++
                  (campaignContacts db c).map (makeCampaignTask c cfg) },
              .started))) := by
  constructor
  · intro hguard
    unfold startCampaignHandler
    rw [hc]
    dsimp only
    rw [if_pos hguard]
  · intro hguard
    have hpc : (processCampaign db c).2 ≠ StartResult.alreadyProcessed := by
      unfold processCampaign
      rw [if_neg hguard]
      by_cases hlen0 : (campaignContacts db c).length = 0
      · rw [if_pos hlen0]
        simp
      · rw [if_neg hlen0]
        cases hcfg : db.smtpConfigs.find? (fun s0 => s0.id == c.senderID) with
        | none =>
          dsimp only
          simp
        | some cfg =>
          dsimp only
          simp
    refine ⟨?_, fun t hsched hfut => ?_, fun hpast hlen cfg hcfg => ?_⟩
    · unfold startCampaignHandler
      rw [hc]
      dsimp only
      rw [if_neg hguard]
      cases hs : c.scheduledAt with
      | none =>
        dsimp only
        exact hpc
      | some t =>
        dsimp only
        by_cases hfut : now < t
        · rw [if_pos hfut]
          simp
        · rw [if_neg hfut]
          exact hpc
    · unfold startCampaignHandler
      rw [hc]
      dsimp only
      rw [if_neg hguard, hsched]
      dsimp only
      rw [if_pos hfut]
    · unfold startCampaignHandler
      rw [hc]
      dsimp only
      rw [if_neg hguard]
      rcases hpast with hnone | ⟨t, hsome, hnfut⟩
      · rw [hnone]
        dsimp only
        unfold processCampaign
        rw [if_neg hguard, if_neg (by omega), hcfg]
      · rw [hsome]
        dsimp only
        rw [if_neg hnfut]
        unfold processCampaign
        rw [if_neg hguard, if_neg (by omega), hcfg]

/-- Witness for `startCampaign_guard_spec`: a due-scheduled campaign
(status `scheduled`, `scheduled_at` in the past) with one manual recipient
and an existing channel is started. -/
theorem startCampaign_guard_spec_witness :
    ¬((("scheduled" : String) = "processing") ∨
      (("scheduled" : String) = "completed")) ∧
    (startCampaignHandler
        ⟨[⟨5, "n", "s", "b", 1, "manual", 0, ["u@a.test"], "scheduled", some 50,
            1, 1, 0, 1, 0, 0, 0⟩], [], [⟨1, "ch", "h", 25, "me@x", "pw", false, true⟩],
          []⟩ 5 100).2 = .started :=
  ⟨by decide,
    congrArg Prod.snd
      ((((startCampaign_guard_spec
        ⟨[⟨5, "n", "s", "b", 1, "manual", 0, ["u@a.test"], "scheduled", some 50,
            1, 1, 0, 1, 0, 0, 0⟩], [], [⟨1, "ch", "h", 25, "me@x", "pw", false, true⟩],
          []⟩ 5 100
        ⟨5, "n", "s", "b", 1, "manual", 0, ["u@a.test"], "scheduled", some 50,
            1, 1, 0, 1, 0, 0, 0⟩ (by decide)).2 (by decide)).2.2
        (Or.inr ⟨50, rfl, by decide⟩) (by decide)
        ⟨1, "ch", "h", 25, "me@x", "pw", false, true⟩ (by decide)))⟩

/-! ## C8 — EmailLog rows per delivery-engine invocation (`SendEmail`,
internal/mailer/sender.go) -/

/-- A send request as `SendEmail` receives it (sender.go:35-45). Attachment
payloads are opaque here: any failure while decoding, downloading or building
the message is represented by `SendEnv.buildError`. -/
structure SendRequest where
  fromAddr : String
  toAddr : String
  subject : String
  body : String
  channelID : Nat
  trackingID : String
deriving Repr, DecidableEq

/-- The environment of one `SendEmail` invocation: the channel table and
the outcomes of the external effects (message building, relay transport per
channel, direct MX transport). `none` means success, `some reason` the
failure reason recorded in the log row. -/
structure SendEnv where
  channels : List SMTPConfig
  buildError : Option String
  relayResult : Nat → Option String
  directResult : Option String

/-- `logAndReturnError` (sender.go:326-349): one `failed` EmailLog row with
the channel tagged `smtp_<id>` when the request names a channel, else
`auto`. -/
def mkFailedLog (req : SendRequest) (reason : String) : EmailLog :=
  ⟨0, req.toAddr, req.subject, req.body, "failed", reason,
   if 0 < req.channelID then "smtp_" ++ toString req.channelID else "auto",
   0, req.trackingID, false, 0, false⟩

/-- `logSuccess` (sender.go:351-360): one `success` EmailLog row tagged with
the transport that delivered. -/
def mkSuccessLog (req : SendRequest) (channel : String) : EmailLog :=
  ⟨0, req.toAddr, req.subject, req.body, "success", "", channel,
   0, req.trackingID, false, 0, false⟩

/-- `sendWithSMTPConfig` (sender.go:200-248): relay transport through one
channel; on failure one failed row (whatever sub-step failed), on success
one `smtp_<cfg.ID>` success row. -/
def sendWithSMTPConfig (env : SendEnv) (req : SendRequest) (cfg : SMTPConfig) :
    List EmailLog × Bool :=
  match env.relayResult cfg.id with
  | some reason => ([mkFailedLog req reason], false)
  | none => ([mkSuccessLog req ("smtp_" ++ toString cfg.id)], true)

/-- `sendByDirect` (sender.go:251-316): MX direct transport; one row either
way (`direct` on success, the aggregated failure otherwise). -/
def sendByDirect (env : SendEnv) (req : SendRequest) : List EmailLog × Bool :=
  match env.directResult with
  | some reason => ([mkFailedLog req reason], false)
  | none => ([mkSuccessLog req "direct"], true)

/-- `SendEmail` (sender.go:48-188), as the sequence of EmailLog rows it
creates plus its success result. Build/attachment failures log one row and
return. `channelID > 0`: relay through that channel (unknown id → one
`smtp_config_not_found` row). `channelID = 0`: try the default channel
first; on its failure fall through to direct send — the relay failure has
already logged a row and `sendByDirect` logs another. -/
def sendEmail (env : SendEnv) (req : SendRequest) : List EmailLog × Bool :=
  match env.buildError with
  | some reason => ([mkFailedLog req reason], false)
  | none =>
    if 0 < req.channelID then
      match env.channels.find? (fun c0 => c0.id == req.channelID) with
      | none => ([mkFailedLog req "smtp_config_not_found"], false)
      | some cfg => sendWithSMTPConfig env req cfg
    else
      match env.channels.find? (fun c0 => c0.isDefault) with
      | some cfg =>
        match sendWithSMTPConfig env req cfg with
        | (_, true) => ([mkSuccessLog req ("smtp_" ++ toString cfg.id)], true)
        | (relayLogs, false) =>
          match sendByDirect env req with
          | (directLogs, ok) => (relayLogs ++ directLogs, ok)
      | none => sendByDirect env req

/-- C8 counterexample: with channel id 0, a default relay that fails and a
direct send that succeeds, one `SendEmail` invocation writes two EmailLog
rows — a `failed` row for the relay leg and a `success` row for the direct
leg — refuting "exactly one EmailLog row with status success iff the
invocation succeeds". -/
theorem sendEmail_two_logs_counterexample :
    (sendEmail
        ⟨[⟨1, "ch", "h", 587, "me@x", "pw", false, true⟩], none,
          fun _ => some "smtp_send_error: connection refused", none⟩
        ⟨"a@x.test", "b@y.test", "s", "<p>x</p>", 0, ""⟩).2 = true ∧
    ((sendEmail
        ⟨[⟨1, "ch", "h", 587, "me@x", "pw", false, true⟩], none,
          fun _ => some "smtp_send_error: connection refused", none⟩
        ⟨"a@x.test", "b@y.test", "s", "<p>x</p>", 0, ""⟩).1.map
      EmailLog.status) = ["failed", "success"] := by
  exact ⟨rfl, rfl⟩

/-- C8 amended: every `SendEmail` invocation writes at least one and at most
two EmailLog rows; the last row's status is `success` iff the invocation
returns success; and two rows occur only on the channel-id-0 fallback where
the default relay leg failed (its row is the `failed` first row) and direct
send was then attempted. -/
theorem sendEmail_log_rows_spec (env : SendEnv) (req : SendRequest) :
    1 ≤ (sendEmail env req).1.length ∧ (sendEmail env req).1.length ≤ 2 ∧
    (∀ l, (sendEmail env req).1.getLast? = some l →
      (l.status = "success" ↔ (sendEmail env req).2 = true)) ∧
    ((sendEmail env req).1.length = 2 →
      req.channelID = 0 ∧ env.buildError = none ∧
      (∃ cfg, env.channels.find? (fun c0 => c0.isDefault) = some cfg ∧
        ∃ reason, env.relayResult cfg.id = some reason) ∧
      ((sendEmail env req).1.map EmailLog.status).head? = some "failed") := by
  cases hbuild : env.buildError with
  | some reason =>
    have hres : sendEmail env req = ([mkFailedLog req reason], false) := by
      simp [sendEmail, hbuild]
    rw [hres]
    simp [mkFailedLog]
  | none =>
    by_cases hcid : 0 < req.channelID
    · cases hfind : env.channels.find? (fun c0 => c0.id == req.channelID) with
      | none =>
        have hres : sendEmail env req =
            ([mkFailedLog req "smtp_config_not_found"], false) := by
          simp [sendEmail, hbuild, hcid, hfind]
        rw [hres]
        simp [mkFailedLog]
      | some cfg =>
        cases hrel : env.relayResult cfg.id with
        | some reason =>
          have hres : sendEmail env req = ([mkFailedLog req reason], false) := by
            simp [sendEmail, sendWithSMTPConfig, hbuild, hcid, hfind, hrel]
          rw [hres]
          simp [mkFailedLog]
        | none =>
          have hres : sendEmail env req =
              ([mkSuccessLog req ("smtp_" ++ toString cfg.id)], true) := by
            simp [sendEmail, sendWithSMTPConfig, hbuild, hcid, hfind, hrel]
          rw [hres]
          simp [mkSuccessLog]
    · cases hdef : env.channels.find? (fun c0 => c0.isDefault) with
      | none =>
        cases hdir : env.directResult with
        | some reason =>
          have hres : sendEmail env req = ([mkFailedLog req reason], false) := by
            simp [sendEmail, sendByDirect, hbuild, hcid, hdef, hdir]
          rw [hres]
          simp [mkFailedLog]
        | none =>
          have hres : sendEmail env req = ([mkSuccessLog req "direct"], true) := by
            simp [sendEmail, sendByDirect, hbuild, hcid, hdef, hdir]
          rw [hres]
          simp [mkSuccessLog]
      | some cfg =>
        cases hrel : env.relayResult cfg.id with
        | none =>
          have hres : sendEmail env req =
              ([mkSuccessLog req ("smtp_" ++ toString cfg.id)], true) := by
            simp [sendEmail, sendWithSMTPConfig, hbuild, hcid, hdef, hrel]
          rw [hres]
          simp [mkSuccessLog]
        | some reason =>
          cases hdir : env.directResult with
          | some r2 =>
            have hres : sendEmail env req =
                ([mkFailedLog req reason, mkFailedLog req r2], false) := by
              simp [sendEmail, sendWithSMTPConfig, sendByDirect, hbuild, hcid,
                hdef, hrel, hdir]
            rw [hres]
            refine ⟨by simp, by simp, ?_, ?_⟩
            · intro l hl
              simp only [List.getLast?_cons_cons, List.getLast?_singleton,
                Option.some.injEq] at hl
              rw [← hl]
              simp [mkFailedLog]
            · intro _
              exact ⟨by omega, rfl, ⟨cfg, rfl, reason, hrel⟩,
                by simp [mkFailedLog]⟩
          | none =>
            have hres : sendEmail env req =
                ([mkFailedLog req reason, mkSuccessLog req "direct"], true) := by
              simp [sendEmail, sendWithSMTPConfig, sendByDirect, hbuild, hcid,
                hdef, hrel, hdir]
            rw [hres]
            refine ⟨by simp, by simp, ?_, ?_⟩
            · intro l hl
              simp only [List.getLast?_cons_cons, List.getLast?_singleton,
                Option.some.injEq] at hl
              rw [← hl]
              simp [mkSuccessLog]
            · intro _
              exact ⟨by omega, rfl, ⟨cfg, rfl, reason, hrel⟩,
                by simp [mkFailedLog]⟩

/-- Witness for `sendEmail_log_rows_spec` on the concrete fallback
environment. -/
theorem sendEmail_log_rows_spec_witness :
    1 ≤ (sendEmail
        ⟨[⟨1, "ch", "h", 587, "me@x", "pw", false, true⟩], none,
          fun _ => some "smtp_send_error: connection refused", none⟩
        ⟨"a@x.test", "b@y.test", "s", "<p>x</p>", 0, ""⟩).1.length ∧
    (sendEmail
        ⟨[⟨1, "ch", "h", 587, "me@x", "pw", false, true⟩], none,
          fun _ => some "smtp_send_error: connection refused", none⟩
        ⟨"a@x.test", "b@y.test", "s", "<p>x</p>", 0, ""⟩).1.length ≤ 2 :=
  ⟨(sendEmail_log_rows_spec
      ⟨[⟨1, "ch", "h", 587, "me@x", "pw", false, true⟩], none,
        fun _ => some "smtp_send_error: connection refused", none⟩
      ⟨"a@x.test", "b@y.test", "s", "<p>x</p>", 0, ""⟩).1,
    (sendEmail_log_rows_spec
      ⟨[⟨1, "ch", "h", 587, "me@x", "pw", false, true⟩], none,
        fun _ => some "smtp_send_error: connection refused", none⟩
      ⟨"a@x.test", "b@y.test", "s", "<p>x</p>", 0, ""⟩).2.1⟩

/-! ## C4 — campaign counter invariant
(`ProcessCampaign` part_011:963-968, `updateCampaignStats` queue.go:171-194)

The lifecycle of one campaign, projected on its row and its queue tasks.
Each step constructor mirrors one code path that can touch them; steps of
other campaigns are independent (every touched row is selected by this
campaign's id) and are therefore not modelled. -/

/-- Projection of the database onto one campaign: its row and the queue rows
with `campaign_id = campaign.id`. -/
structure CampState where
  campaign : Campaign
  tasks : List EmailQueue
deriving Repr, DecidableEq

/-- A task in a state that counts against the campaign totals: `completed`
(success accounting) or `dead` (terminal-failure accounting). -/
def isTerminalTask (q : EmailQueue) : Bool :=
  q.status == "completed" || q.status == "dead"

/-- Number of tasks already accounted. -/
def terminalTasks (tasks : List EmailQueue) : Nat :=
  (tasks.filter isTerminalTask).length

/-- `pendingCount` of queue.go:211-213, projected. -/
def pendingTasks (tasks : List EmailQueue) : Nat :=
  (tasks.filter fun q => q.status == "pending" || q.status == "processing").length

/-- `retryableCount` of queue.go:216-219, projected. -/
def retryableTasks (tasks : List EmailQueue) : Nat :=
  (tasks.filter fun q => q.status == "failed" && decide (q.retries < MaxRetries)).length

/-- `checkCampaignCompletion` (queue.go:197-229) projected on one campaign:
mark `completed` only from `processing` with no pending/processing task and
no failed task with retries left. -/
def completionCheck (c : Campaign) (tasks : List EmailQueue) : Campaign :=
  if c.status = "processing" ∧ pendingTasks tasks = 0 ∧ retryableTasks tasks = 0
  then { c with status := "completed" } else c

/-- `updateCampaignStats` (queue.go:171-194) projected on one campaign: the
success or failure counter plus `sent_count` are incremented, then the
completion check runs against the queue state. -/
def statsUpdate (c : Campaign) (tasks : List EmailQueue) (success : Bool) :
    Campaign :=
  completionCheck
    (if success
     then { c with successCount := c.successCount + 1, sentCount := c.sentCount + 1 }
     else { c with failCount := c.failCount + 1, sentCount := c.sentCount + 1 })
    tasks

/-- One step of the campaign lifecycle. `startable` is an additional guard on
the Start-flavoured transitions: the code itself only rejects
`processing`/`completed` (the `hguard` premise, from `StartCampaignHandler`
and `ProcessCampaign`), so the code's own step relation is obtained with
`startable := fun _ => True`; the amended claim strengthens it. -/
inductive CampStep (startable : String → Prop) : CampState → CampState → Prop
  /-- Start with `scheduled_at` in the future (part_013:499-504). -/
  | schedule (c : Campaign) (tasks : List EmailQueue)
      (hg : startable c.status)
      (hguard : ¬(c.status = "processing" ∨ c.status = "completed")) :
      CampStep startable ⟨c, tasks⟩ ⟨{ c with status := "scheduled" }, tasks⟩
  /-- Start finding no recipients or no sender channel (part_011:950-960):
      status `failed`, nothing else changes. -/
  | startFail (c : Campaign) (tasks : List EmailQueue)
      (hg : startable c.status)
      (hguard : ¬(c.status = "processing" ∨ c.status = "completed")) :
      CampStep startable ⟨c, tasks⟩ ⟨{ c with status := "failed" }, tasks⟩
  /-- Successful expansion (part_011:963-968 plus the fan-out): status
      `processing`, `total_count = len(contacts)`, `sent_count = 0` — while
      `success_count` and `fail_count` keep their previous values — and one
      fresh pending task per recipient appended to the queue. -/
  | expand (c : Campaign) (tasks newTasks : List EmailQueue)
      (hg : startable c.status)
      (hguard : ¬(c.status = "processing" ∨ c.status = "completed"))
      (hnew : ∀ t ∈ newTasks, t.status = "pending" ∧ t.retries = 0)
      (hlen : 0 < newTasks.length) :
      CampStep startable ⟨c, tasks⟩
        ⟨{ c with
            status := "processing"
            totalCount := newTasks.length
            sentCount := 0 },
         tasks ++ newTasks⟩
  /-- The worker claim (queue.go:98-104) of a `pending`/`failed` task. -/
  | claim (c : Campaign) (pre post : List EmailQueue) (t t2 : EmailQueue)
      (hst : t.status = "pending" ∨ t.status = "failed")
      (ht2 : t2 = { t with status := "processing" }) :
      CampStep startable ⟨c, pre ++ t :: post⟩ ⟨c, pre ++ t2 :: post⟩
  /-- Success branch of the worker goroutine (queue.go:131-141) for a claimed
      task: row `completed` with the error cleared, then the terminal
      accounting. -/
  | succeed (c : Campaign) (pre post : List EmailQueue) (t t2 : EmailQueue)
      (hst : t.status = "processing")
      (ht2 : t2 = { t with status := "completed", errorMsg := "" }) :
      CampStep startable ⟨c, pre ++ t :: post⟩
        ⟨statsUpdate c (pre ++ t2 :: post) true, pre ++ t2 :: post⟩
  /-- Failure branch with retries left (queue.go:109-126): row `failed`,
      retries bumped, linear backoff, no accounting. -/
  | failRetry (c : Campaign) (pre post : List EmailQueue) (t t2 : EmailQueue)
      (now : Int) (msg : String)
      (hst : t.status = "processing") (hlt : t.retries + 1 < MaxRetries)
      (ht2 : t2 = { t with
        status := "failed"
        retries := t.retries + 1
        nextRetry := now + RetryInterval * ((t.retries + 1 : Nat) : Int)
        errorMsg := msg }) :
      CampStep startable ⟨c, pre ++ t :: post⟩ ⟨c, pre ++ t2 :: post⟩
  /-- Failure branch at the retry limit (queue.go:109-130): row `dead`, then
      the terminal accounting. -/
  | failDead (c : Campaign) (pre post : List EmailQueue) (t t2 : EmailQueue)
      (now : Int) (msg : String)
      (hst : t.status = "processing") (hge : MaxRetries ≤ t.retries + 1)
      (ht2 : t2 = { t with
        status := "dead"
        retries := t.retries + 1
        nextRetry := now + RetryInterval * ((t.retries + 1 : Nat) : Int)
        errorMsg := msg }) :
      CampStep startable ⟨c, pre ++ t :: post⟩
        ⟨statsUpdate c (pre ++ t2 :: post) false, pre ++ t2 :: post⟩
  /-- `PauseCampaignHandler` (part_013): only from `processing`. -/
  | pause (c : Campaign) (tasks : List EmailQueue)
      (h : c.status = "processing") :
      CampStep startable ⟨c, tasks⟩ ⟨{ c with status := "paused" }, tasks⟩
  /-- `ResumeCampaignHandler` (part_013): only from `paused`. -/
  | resume (c : Campaign) (tasks : List EmailQueue)
      (h : c.status = "paused") :
      CampStep startable ⟨c, tasks⟩ ⟨{ c with status := "processing" }, tasks⟩
  /-- Fan-out timeout / cancellation / panic recovery (part_011): the
      campaign is marked `failed` unconditionally. -/
  | markFailed (c : Campaign) (tasks : List EmailQueue) :
      CampStep startable ⟨c, tasks⟩ ⟨{ c with status := "failed" }, tasks⟩

/-- Reachability through campaign lifecycle steps. -/
def CampReach (startable : String → Prop) : CampState → CampState → Prop :=
  Relation.ReflTransGen (CampStep startable)

/-- C4 counterexample: the claim as stated (including restart after `failed`)
is false. A fresh draft campaign is expanded to one recipient, the task is
claimed, the fan-out timeout marks the campaign `failed`, the in-flight task
then succeeds (counting `sent=1, success=1`), and Start is invoked again
(legal from `failed`): the expansion resets `sent_count` to 0 but keeps
`success_count = 1`, so the campaign is back in `processing` with
`sent_count ≠ success_count + fail_count`. -/
theorem campaign_invariant_counterexample :
    CampReach (fun _ => True)
      ⟨⟨9, "n", "s", "b", 1, "manual", 0, ["u@a"], "draft", none,
          0, 0, 0, 0, 0, 0, 0⟩, []⟩
      ⟨⟨9, "n", "s", "b", 1, "manual", 0, ["u@a"], "processing", none,
          1, 0, 1, 0, 0, 0, 0⟩,
        [⟨1, "me@x", "u@a", "s", "b", "", 1, "completed", 0, 0, "", 9, ""⟩,
         ⟨2, "me@x", "u@a", "s", "b", "", 1, "pending", 0, 0, "", 9, ""⟩]⟩ ∧
    ("processing" : String) = "processing" ∧ (0 : Nat) ≠ 1 + 0 := by
  refine ⟨?_, rfl, by decide⟩
  refine Relation.ReflTransGen.head
    (CampStep.expand ⟨9, "n", "s", "b", 1, "manual", 0, ["u@a"], "draft", none,
        0, 0, 0, 0, 0, 0, 0⟩ []
      [⟨1, "me@x", "u@a", "s", "b", "", 1, "pending", 0, 0, "", 9, ""⟩]
      trivial (by decide) (by decide) (by decide)) ?_
  refine Relation.ReflTransGen.head
    (CampStep.claim _ [] []
      ⟨1, "me@x", "u@a", "s", "b", "", 1, "pending", 0, 0, "", 9, ""⟩
      ⟨1, "me@x", "u@a", "s", "b", "", 1, "processing", 0, 0, "", 9, ""⟩
      (Or.inl rfl) rfl) ?_
  refine Relation.ReflTransGen.head (CampStep.markFailed _ _) ?_
  refine Relation.ReflTransGen.head
    (CampStep.succeed _ [] []
      ⟨1, "me@x", "u@a", "s", "b", "", 1, "processing", 0, 0, "", 9, ""⟩
      ⟨1, "me@x", "u@a", "s", "b", "", 1, "completed", 0, 0, "", 9, ""⟩
      rfl rfl) ?_
  exact Relation.ReflTransGen.single
    (CampStep.expand _ _
      [⟨2, "me@x", "u@a", "s", "b", "", 1, "pending", 0, 0, "", 9, ""⟩]
      trivial (by decide) (by decide) (by decide))

/-- The strengthened Start guard of the amended claim: expansion (and the
other Start paths) fire only from `draft` or `scheduled`, i.e. the campaign
is never started again after entering `failed`, nor from `paused`. -/
def draftStartable (st : String) : Prop :=
  st = "draft" ∨ st = "scheduled"

/-- Inductive invariant of the single-start campaign lifecycle. -/
def CampInv (s : CampState) : Prop :=
  s.campaign.sentCount = s.campaign.successCount + s.campaign.failCount ∧
  s.campaign.sentCount = terminalTasks s.tasks ∧
  ((s.campaign.status = "draft" ∨ s.campaign.status = "scheduled") →
    s.tasks = [] ∧ s.campaign.sentCount = 0 ∧ s.campaign.successCount = 0 ∧
    s.campaign.failCount = 0 ∧ s.campaign.totalCount = 0) ∧
  (¬(s.campaign.status = "draft" ∨ s.campaign.status = "scheduled") →
    s.campaign.totalCount = s.tasks.length)

theorem terminalTasks_append (l1 l2 : List EmailQueue) :
    terminalTasks (l1 ++ l2) = terminalTasks l1 + terminalTasks l2 := by
  simp [terminalTasks, List.filter_append]

theorem terminalTasks_cons (t : EmailQueue) (l : List EmailQueue) :
    terminalTasks (t :: l) =
      (if isTerminalTask t then 1 else 0) + terminalTasks l := by
  by_cases h : isTerminalTask t
  · simp [terminalTasks, List.filter_cons, h]
    omega
  · simp [terminalTasks, List.filter_cons, h]

theorem statsUpdate_counts_true (c : Campaign) (ts : List EmailQueue) :
    (statsUpdate c ts true).sentCount = c.sentCount + 1 ∧
    (statsUpdate c ts true).successCount = c.successCount + 1 ∧
    (statsUpdate c ts true).failCount = c.failCount ∧
    (statsUpdate c ts true).totalCount = c.totalCount ∧
    ((statsUpdate c ts true).status = c.status ∨
      (statsUpdate c ts true).status = "completed") := by
  have hsu : statsUpdate c ts true =
      completionCheck
        { c with successCount := c.successCount + 1, sentCount := c.sentCount + 1 }
        ts := rfl
  rw [hsu]
  unfold completionCheck
  split
  · exact ⟨rfl, rfl, rfl, rfl, Or.inr rfl⟩
  · exact ⟨rfl, rfl, rfl, rfl, Or.inl rfl⟩

theorem statsUpdate_counts_false (c : Campaign) (ts : List EmailQueue) :
    (statsUpdate c ts false).sentCount = c.sentCount + 1 ∧
    (statsUpdate c ts false).successCount = c.successCount ∧
    (statsUpdate c ts false).failCount = c.failCount + 1 ∧
    (statsUpdate c ts false).totalCount = c.totalCount ∧
    ((statsUpdate c ts false).status = c.status ∨
      (statsUpdate c ts false).status = "completed") := by
  have hsu : statsUpdate c ts false =
      completionCheck
        { c with failCount := c.failCount + 1, sentCount := c.sentCount + 1 }
        ts := rfl
  rw [hsu]
  unfold completionCheck
  split
  · exact ⟨rfl, rfl, rfl, rfl, Or.inr rfl⟩
  · exact ⟨rfl, rfl, rfl, rfl, Or.inl rfl⟩

theorem campStep_preserves_inv (s s' : CampState)
    (hstep : CampStep draftStartable s s') (hinv : CampInv s) : CampInv s' := by
  obtain ⟨h1, h2, h3, h4⟩ := hinv
  cases hstep with
  | schedule c tasks hg hguard =>
    have hclean := h3 hg
    exact ⟨h1, h2, fun _ => hclean, fun hns => absurd (Or.inr rfl) hns⟩
  | startFail c tasks hg hguard =>
    obtain ⟨ht, hs0, hsc0, hf0, htot⟩ := h3 hg
    refine ⟨h1, h2, fun hds => absurd hds ?_, fun _ => ?_⟩
    · show ¬(("failed" : String) = "draft" ∨ ("failed" : String) = "scheduled")
      decide
    · show c.totalCount = tasks.length
      rw [show c.totalCount = 0 from htot, show tasks = [] from ht]
      rfl
  | expand c tasks newTasks hg hguard hnew hlen =>
    obtain ⟨htasks, hsent, hsucc, hfail, htot⟩ := h3 hg
    have htasks2 : tasks = [] := htasks
    have hsucc2 : c.successCount = 0 := hsucc
    have hfail2 : c.failCount = 0 := hfail
    have hnt : terminalTasks newTasks = 0 := by
      simp only [terminalTasks, List.length_eq_zero, List.filter_eq_nil_iff]
      intro t ht
      have := (hnew t ht).1
      simp [isTerminalTask, this]
    refine ⟨?_, ?_, fun hds => absurd hds ?_, fun _ => ?_⟩
    · show (0 : Nat) = c.successCount + c.failCount
      rw [hsucc2, hfail2]
    · show (0 : Nat) = terminalTasks (tasks ++ newTasks)
      rw [htasks2, List.nil_append, hnt]
    · show ¬(("processing" : String) = "draft" ∨
        ("processing" : String) = "scheduled")
      decide
    · show newTasks.length = (tasks ++ newTasks).length
      rw [htasks2, List.nil_append]
  | claim c pre post t t2 hst ht2 =>
    have hT : isTerminalTask t = false := by
      rcases hst with h | h <;> simp [isTerminalTask, h]
    have hT2 : isTerminalTask t2 = false := by
      rw [ht2]
      simp [isTerminalTask]
    have hnds : ¬(c.status = "draft" ∨ c.status = "scheduled") :=
      fun hds => absurd ((h3 hds).1 : pre ++ t :: post = []) (by simp)
    refine ⟨h1, ?_, fun hds => absurd hds hnds, fun _ => ?_⟩
    · show c.sentCount = terminalTasks (pre ++ t2 :: post)
      rw [show c.sentCount = terminalTasks (pre ++ t :: post) from h2,
        terminalTasks_append, terminalTasks_append, terminalTasks_cons,
        terminalTasks_cons, hT, hT2]
    · show c.totalCount = (pre ++ t2 :: post).length
      rw [show c.totalCount = (pre ++ t :: post).length from h4 hnds]
      simp
  | succeed c pre post t t2 hst ht2 =>
    have hT : isTerminalTask t = false := by simp [isTerminalTask, hst]
    have hT2 : isTerminalTask t2 = true := by
      rw [ht2]
      simp [isTerminalTask]
    have hnds : ¬(c.status = "draft" ∨ c.status = "scheduled") :=
      fun hds => absurd ((h3 hds).1 : pre ++ t :: post = []) (by simp)
    obtain ⟨hcs, hcsc, hcf, hct, hcst⟩ := statsUpdate_counts_true c (pre ++ t2 :: post)
    have e1 : terminalTasks (pre ++ t :: post) =
        terminalTasks pre + terminalTasks post := by
      rw [terminalTasks_append, terminalTasks_cons, hT]
      simp
    have e2 : terminalTasks (pre ++ t2 :: post) =
        terminalTasks pre + (1 + terminalTasks post) := by
      rw [terminalTasks_append, terminalTasks_cons, hT2]
      simp
    have h1r : c.sentCount = c.successCount + c.failCount := h1
    have h2r : c.sentCount = terminalTasks (pre ++ t :: post) := h2
    refine ⟨?_, ?_, fun hds => ?_, fun _ => ?_⟩
    · show (statsUpdate c (pre ++ t2 :: post) true).sentCount =
        (statsUpdate c (pre ++ t2 :: post) true).successCount +
          (statsUpdate c (pre ++ t2 :: post) true).failCount
      rw [hcs, hcsc, hcf]
      omega
    · show (statsUpdate c (pre ++ t2 :: post) true).sentCount =
        terminalTasks (pre ++ t2 :: post)
      rw [hcs, e2]
      omega
    · have hds2 : (statsUpdate c (pre ++ t2 :: post) true).status = "draft" ∨
          (statsUpdate c (pre ++ t2 :: post) true).status = "scheduled" := hds
      rcases hcst with he | he
      · rw [he] at hds2
        exact absurd hds2 hnds
      · rw [he] at hds2
        exact absurd hds2 (by decide)
    · show (statsUpdate c (pre ++ t2 :: post) true).totalCount =
        (pre ++ t2 :: post).length
      rw [hct, show c.totalCount = (pre ++ t :: post).length from h4 hnds]
      simp
  | failRetry c pre post t t2 now msg hst hlt ht2 =>
    have hT : isTerminalTask t = false := by simp [isTerminalTask, hst]
    have hT2 : isTerminalTask t2 = false := by
      rw [ht2]
      simp [isTerminalTask]
    have hnds : ¬(c.status = "draft" ∨ c.status = "scheduled") :=
      fun hds => absurd ((h3 hds).1 : pre ++ t :: post = []) (by simp)
    refine ⟨h1, ?_, fun hds => absurd hds hnds, fun _ => ?_⟩
    · show c.sentCount = terminalTasks (pre ++ t2 :: post)
      rw [show c.sentCount = terminalTasks (pre ++ t :: post) from h2,
        terminalTasks_append, terminalTasks_append, terminalTasks_cons,
        terminalTasks_cons, hT, hT2]
    · show c.totalCount = (pre ++ t2 :: post).length
      rw [show c.totalCount = (pre ++ t :: post).length from h4 hnds]
      simp
  | failDead c pre post t t2 now msg hst hge ht2 =>
    have hT : isTerminalTask t = false := by simp [isTerminalTask, hst]
    have hT2 : isTerminalTask t2 = true := by
      rw [ht2]
      simp [isTerminalTask]
    have hnds : ¬(c.status = "draft" ∨ c.status = "scheduled") :=
      fun hds => absurd ((h3 hds).1 : pre ++ t :: post = []) (by simp)
    obtain ⟨hcs, hcsc, hcf, hct, hcst⟩ := statsUpdate_counts_false c (pre ++ t2 :: post)
    have e1 : terminalTasks (pre ++ t :: post) =
        terminalTasks pre + terminalTasks post := by
      rw [terminalTasks_append, terminalTasks_cons, hT]
      simp
    have e2 : terminalTasks (pre ++ t2 :: post) =
        terminalTasks pre + (1 + terminalTasks post) := by
      rw [terminalTasks_append, terminalTasks_cons, hT2]
      simp
    have h1r : c.sentCount = c.successCount + c.failCount := h1
    have h2r : c.sentCount = terminalTasks (pre ++ t :: post) := h2
    refine ⟨?_, ?_, fun hds => ?_, fun _ => ?_⟩
    · show (statsUpdate c (pre ++ t2 :: post) false).sentCount =
        (statsUpdate c (pre ++ t2 :: post) false).successCount +
          (statsUpdate c (pre ++ t2 :: post) false).failCount
      rw [hcs, hcsc, hcf]
      omega
    · show (statsUpdate c (pre ++ t2 :: post) false).sentCount =
        terminalTasks (pre ++ t2 :: post)
      rw [hcs, e2]
      omega
    · have hds2 : (statsUpdate c (pre ++ t2 :: post) false).status = "draft" ∨
          (statsUpdate c (pre ++ t2 :: post) false).status = "scheduled" := hds
      rcases hcst with he | he
      · rw [he] at hds2
        exact absurd hds2 hnds
      · rw [he] at hds2
        exact absurd hds2 (by decide)
    · show (statsUpdate c (pre ++ t2 :: post) false).totalCount =
        (pre ++ t2 :: post).length
      rw [hct, show c.totalCount = (pre ++ t :: post).length from h4 hnds]
      simp
  | pause c tasks h =>
    have hnds : ¬(c.status = "draft" ∨ c.status = "scheduled") := by
      rw [h]
      decide
    refine ⟨h1, h2, fun hds => absurd hds ?_, fun _ => h4 hnds⟩
    show ¬(("paused" : String) = "draft" ∨ ("paused" : String) = "scheduled")
    decide
  | resume c tasks h =>
    have hnds : ¬(c.status = "draft" ∨ c.status = "scheduled") := by
      rw [h]
      decide
    refine ⟨h1, h2, fun hds => absurd hds ?_, fun _ => h4 hnds⟩
    show ¬(("processing" : String) = "draft" ∨
      ("processing" : String) = "scheduled")
    decide
  | markFailed c tasks =>
    refine ⟨h1, h2, fun hds => absurd hds ?_, fun _ => ?_⟩
    · show ¬(("failed" : String) = "draft" ∨ ("failed" : String) = "scheduled")
      decide
    · by_cases hds : c.status = "draft" ∨ c.status = "scheduled"
      · obtain ⟨ht, _, _, _, htot⟩ := h3 hds
        show c.totalCount = tasks.length
        rw [show c.totalCount = 0 from htot, show tasks = [] from ht]
        rfl
      · exact h4 hds

theorem campReach_inv (s0 s : CampState) (h0 : CampInv s0)
    (hr : CampReach draftStartable s0 s) : CampInv s := by
  unfold CampReach at hr
  induction hr with
  | refl => exact h0
  | tail _ hstep ih => exact campStep_preserves_inv _ _ hstep ih

/-- C4 amended: for a campaign created fresh (status `draft`, zero counters)
and driven by any legal sequence of operations in which the Start paths fire
only from `draft` or `scheduled` (i.e. the campaign is never started again
after entering `failed`, nor from `paused`), every reachable `processing`
state satisfies `sent_count = success_count + fail_count` and
`sent_count <= total_count`. Restarting after `failed` breaks the equation
because expansion resets `sent_count` but not `success_count`/`fail_count`
(see the counterexample). -/
theorem campaign_invariant_single_start (c0 : Campaign) (s : CampState)
    (hdraft : c0.status = "draft")
    (hzero : c0.sentCount = 0 ∧ c0.successCount = 0 ∧ c0.failCount = 0 ∧
      c0.totalCount = 0)
    (hr : CampReach draftStartable ⟨c0, []⟩ s)
    (hproc : s.campaign.status = "processing") :
    s.campaign.sentCount = s.campaign.successCount + s.campaign.failCount ∧
    s.campaign.sentCount ≤ s.campaign.totalCount := by
  obtain ⟨hz1, hz2, hz3, hz4⟩ := hzero
  have h0 : CampInv ⟨c0, []⟩ := by
    refine ⟨by simp [hz1, hz2, hz3], by simp [hz1, terminalTasks],
      fun _ => ⟨rfl, hz1, hz2, hz3, hz4⟩, fun hns => absurd (Or.inl hdraft) hns⟩
  obtain ⟨h1, h2, h3, h4⟩ := campReach_inv ⟨c0, []⟩ s h0 hr
  refine ⟨h1, ?_⟩
  have htot : s.campaign.totalCount = s.tasks.length := by
    refine h4 fun hds => ?_
    rw [hproc] at hds
    exact absurd hds (by decide)
  rw [h2, htot]
  exact List.length_filter_le _ _

/-- Witness for `campaign_invariant_single_start`: a draft campaign expanded
once to one recipient is `processing` with `0 = 0 + 0` and `0 ≤ 1`. -/
theorem campaign_invariant_single_start_witness :
    ((0 : Nat) = 0 + 0) ∧ (0 : Nat) ≤ 1 :=
  campaign_invariant_single_start
    ⟨9, "n", "s", "b", 1, "manual", 0, ["u@a"], "draft", none,
      0, 0, 0, 0, 0, 0, 0⟩
    ⟨⟨9, "n", "s", "b", 1, "manual", 0, ["u@a"], "processing", none,
        1, 0, 0, 0, 0, 0, 0⟩,
      [⟨1, "me@x", "u@a", "s", "b", "", 1, "pending", 0, 0, "", 9, ""⟩]⟩
    rfl ⟨rfl, rfl, rfl, rfl⟩
    (Relation.ReflTransGen.single
      (CampStep.expand _ []
        [⟨1, "me@x", "u@a", "s", "b", "", 1, "pending", 0, 0, "", 9, ""⟩]
        (Or.inl rfl) (by decide) (by decide) (by decide)))
    rfl

end QingChenMail
